import Mathlib

/-!
Verification of the stateless DID-commitment checker
(src/solana/did_commitment/src/lib.rs): keccak-256 aggregate recomputation,
Merkle-proof-to-root reconstruction, Ed25519 signature dispatch, and the
fixed-order verification pipeline, shallowly embedded over byte lists.

Bytes are modelled as natural numbers below 256 and byte strings as lists;
the keccak-256 sponge (the sha3 crate's Keccak256, original 0x01 padding)
is implemented concretely and executably, so every hash equation below is
about the real function.  The two ed25519-dalek entry points used by the
program (key/signature parsing and strict verification) are external crate
code; the pipeline is therefore parameterised over them, and theorems
quantify over every possible behaviour of those externals.
-/

/-- Left-rotate a 64-bit word (a natural number below `2 ^ 64`) by `n` bits. -/
def rotl64 (x n : Nat) : Nat :=
  ((x <<< n) ||| (x >>> (64 - n))) % (2 ^ 64)

/-- One step of the 8-bit LFSR (polynomial x^8 + x^6 + x^5 + x^4 + 1, FIPS
202 §3.2.5) that generates the iota round-constant bits. -/
def rcStep (r : Nat) : Nat :=
  ((r <<< 1) ^^^ (if r.testBit 7 then 0x71 else 0)) % 256

/-- The LFSR register after `t` steps, starting from 1. -/
def rcState : Nat → Nat
  | 0 => 1
  | t + 1 => rcStep (rcState t)

/-- The round-constant bit rc(t): the low bit of the register. -/
def rcBit (t : Nat) : Nat := rcState t % 2

/-- The iota constant of round `i`: bit rc(j + 7 i) placed at position
`2 ^ j - 1` of the 64-bit lane, for j = 0..6. -/
def roundConstant (i : Nat) : Nat :=
  (List.range 7).foldl (fun acc j => acc ||| (rcBit (j + 7 * i) <<< (2 ^ j - 1))) 0

/-- Keccak-f[1600] round constants, one per round. -/
def roundConstants : List Nat :=
  (List.range 24).map roundConstant

/-- Combined rho/pi step as a gather table: output lane `i` is the input lane
at the first component, left-rotated by the second component. -/
def rhoPiTable : List (Nat × Nat) :=
  [(0, 0), (6, 44), (12, 43), (18, 21), (24, 14),
   (3, 28), (9, 20), (10, 3), (16, 45), (22, 61),
   (1, 1), (7, 6), (13, 25), (19, 8), (20, 18),
   (4, 27), (5, 36), (11, 10), (17, 15), (23, 56),
   (2, 62), (8, 55), (14, 39), (15, 41), (21, 2)]

/-- Keccak theta step on a 25-lane state (lane `i` is position `x + 5 * y`). -/
def theta (s : List Nat) : List Nat :=
  let c := fun x => s.getD x 0 ^^^ s.getD (x + 5) 0 ^^^ s.getD (x + 10) 0 ^^^
    s.getD (x + 15) 0 ^^^ s.getD (x + 20) 0
  let d := fun x => c ((x + 4) % 5) ^^^ rotl64 (c ((x + 1) % 5)) 1
  (List.range 25).map (fun i => s.getD i 0 ^^^ d (i % 5))

/-- Keccak rho and pi steps. -/
def rhoPi (s : List Nat) : List Nat :=
  rhoPiTable.map (fun p => rotl64 (s.getD p.1 0) p.2)

/-- Keccak chi step. -/
def chi (s : List Nat) : List Nat :=
  (List.range 25).map (fun i =>
    let x := i % 5
    let y := i - x
    s.getD i 0 ^^^ ((s.getD (y + (x + 1) % 5) 0 ^^^ 0xFFFFFFFFFFFFFFFF) &&&
      s.getD (y + (x + 2) % 5) 0))

/-- Keccak iota step: xor the round constant into lane 0. -/
def iota (rc : Nat) (s : List Nat) : List Nat :=
  match s with
  | [] => []
  | a :: rest => (a ^^^ rc) :: rest

/-- One Keccak-f[1600] round. -/
def keccakRound (s : List Nat) (rc : Nat) : List Nat :=
  iota rc (chi (rhoPi (theta s)))

/-- The full 24-round Keccak-f[1600] permutation. -/
def keccakF (s : List Nat) : List Nat :=
  roundConstants.foldl keccakRound s

/-- Interpret up to eight bytes as a little-endian 64-bit lane. -/
def bytesToLane (bs : List Nat) : Nat :=
  bs.foldr (fun b acc => acc * 256 + b) 0

/-- Absorb one 136-byte rate block into the sponge state and permute. -/
def absorbBlock (s : List Nat) (block : List Nat) : List Nat :=
  keccakF ((List.range 25).map (fun i =>
    s.getD i 0 ^^^ (if i < 17 then bytesToLane ((block.drop (8 * i)).take 8) else 0)))

/-- Keccak multi-rate padding with the original 0x01 domain byte (the
Ethereum-style Keccak-256, as produced by the sha3 crate's Keccak256). -/
def padKeccak (m : List Nat) : List Nat :=
  let padLen := 136 - m.length % 136
  if padLen == 1 then m ++ [0x81]
  else m ++ 0x01 :: (List.replicate (padLen - 2) 0 ++ [0x80])

/-- Absorb a padded message block by block; the fuel argument bounds the
number of blocks and keeps the recursion structural (hence kernel-reducible). -/
def absorbGo (s : List Nat) (m : List Nat) : Nat → List Nat
  | 0 => s
  | fuel + 1 =>
      match m with
      | [] => s
      | _ :: _ => absorbGo (absorbBlock s (m.take 136)) (m.drop 136) fuel

/-- Absorb a whole padded message. -/
def absorbBlocks (s : List Nat) (m : List Nat) : List Nat :=
  absorbGo s m (m.length / 136 + 1)

/-- Serialise one 64-bit lane to eight little-endian bytes. -/
def laneToBytes (x : Nat) : List Nat :=
  (List.range 8).map (fun i => x / 256 ^ i % 256)

/-- Keccak-256 of a byte string: pad, absorb, and squeeze the first 32 bytes.
Validated against the standard test vectors (the digest of the empty string
is c5d24601...5d85a470) and, for multi-block inputs, against an
independently cross-checked reference implementation. -/
def keccak256 (m : List Nat) : List Nat :=
  let s := absorbBlocks (List.replicate 25 0) (padKeccak m)
  laneToBytes (s.getD 0 0) ++ laneToBytes (s.getD 1 0) ++
    laneToBytes (s.getD 2 0) ++ laneToBytes (s.getD 3 0)

/-- The program's 32-byte hash type (Rust `pub type Hash = [u8; 32]`),
modelled as a byte list; `isHash` below captures the fixed length. -/
abbrev Hash := List Nat

/-- A well-formed value of the Rust `Hash` type: exactly 32 bytes. -/
abbrev isHash (h : Hash) : Prop := h.length = 32

/-- The incremental hasher interface the program uses (sha3's `Keccak256`):
`update` appends to the absorbed stream, `finalize` digests it.  Semantically
the digest of the concatenation of all updates, which is what the sponge
computes. -/
structure Keccak256 where
  buffer : List Nat

/-- Fresh hasher (`Keccak256::new()`). -/
def Keccak256.new : Keccak256 := ⟨[]⟩

/-- Absorb more input (`hasher.update(data)`). -/
def Keccak256.update (h : Keccak256) (data : List Nat) : Keccak256 :=
  ⟨h.buffer ++ data⟩

/-- Produce the digest (`hasher.finalize()`). -/
def Keccak256.finalize (h : Keccak256) : Hash :=
  keccak256 h.buffer

/-- Rust struct `CommitmentTuple`. -/
structure CommitmentTuple where
  did_hash : Hash
  credential_root : Hash
  zk_commitment : Hash
  aggregate_commitment : Hash
deriving DecidableEq

/-- Rust `CommitmentTuple::recompute_aggregate`: one keccak-256 digest of
`did_hash`, `credential_root`, `zk_commitment` fed in that order. -/
def CommitmentTuple.recompute_aggregate (t : CommitmentTuple) : Hash :=
  let hasher := Keccak256.new
  let hasher := hasher.update t.did_hash
  let hasher := hasher.update t.credential_root
  let hasher := hasher.update t.zk_commitment
  hasher.finalize

/-- Rust struct `VerifyInstruction` (the decoded verification request);
`index` is a u64 position, modelled as a natural number (every theorem below
quantifies over all of Nat, hence over every 64-bit value). -/
structure VerifyInstruction where
  commitment : CommitmentTuple
  credential_leaf : Hash
  index : Nat
  merkle_proof : List Hash
  ed25519_public_key : List Nat
  ed25519_signature : List Nat
deriving DecidableEq

/-- Rust enum `DidCommitmentError`, in declaration order. -/
inductive DidCommitmentError where
  | AggregateMismatch
  | InvalidMerkleProof
  | SignatureInvalid
  | DeserializeFailed
deriving DecidableEq, BEq

/-- The variants of `DidCommitmentError` in their source declaration order. -/
def DidCommitmentError.declarationOrder : List DidCommitmentError :=
  [.AggregateMismatch, .InvalidMerkleProof, .SignatureInvalid, .DeserializeFailed]

/-- The implicit Rust enum discriminant (`value as u32`): the position of the
variant in declaration order. -/
def DidCommitmentError.discriminant (e : DidCommitmentError) : Nat :=
  DidCommitmentError.declarationOrder.findIdx (fun x => x == e)

/-- The one `ProgramError` constructor this program ever produces. -/
inductive ProgramError where
  | Custom (code : Nat)
deriving DecidableEq

/-- Rust `impl From<DidCommitmentError> for ProgramError`:
`ProgramError::Custom(value as u32)`. -/
def ProgramError.fromDidCommitmentError (e : DidCommitmentError) : ProgramError :=
  ProgramError.Custom e.discriminant

/-- Rust `compute_merkle_root`: fold over the proof keeping the mutable
`(computed, index)` pair of the source loop; each step hashes
`computed ‖ sibling` or `sibling ‖ computed` by the parity of `index` and
halves `index`. -/
def compute_merkle_root (leaf : Hash) (proof : List Hash) (index : Nat) : Hash :=
  (proof.foldl
    (fun st sibling =>
      let hasher := Keccak256.new
      let hasher :=
        if st.2 % 2 == 0 then (hasher.update st.1).update sibling
        else (hasher.update sibling).update st.1
      (hasher.finalize, st.2 / 2))
    (leaf, index)).1

/-- Rust `verify_commitment`.  The three ed25519-dalek externals it calls —
`VerifyingKey::from_bytes`, `Signature::from_bytes`, and
`VerifyingKey::verify_strict` — are crate code outside this repository, so
they are taken as parameters (`from_bytes_key`, `from_bytes_sig`,
`verify_strict`); every branch of the source, including the error mapped
from each fallible step, is transcribed. -/
def verify_commitment {K S : Type}
    (from_bytes_key : List Nat → Option K)
    (from_bytes_sig : List Nat → Option S)
    (verify_strict : K → List Nat → S → Bool)
    (instruction : VerifyInstruction) : Except ProgramError Unit :=
  let recomputed := instruction.commitment.recompute_aggregate
  if recomputed ≠ instruction.commitment.aggregate_commitment then
    Except.error (ProgramError.fromDidCommitmentError DidCommitmentError.AggregateMismatch)
  else
    let leaf_root := compute_merkle_root instruction.credential_leaf
      instruction.merkle_proof instruction.index
    if leaf_root ≠ instruction.commitment.credential_root then
      Except.error (ProgramError.fromDidCommitmentError DidCommitmentError.InvalidMerkleProof)
    else
      match from_bytes_key instruction.ed25519_public_key with
      | none =>
          Except.error (ProgramError.fromDidCommitmentError DidCommitmentError.SignatureInvalid)
      | some verifying_key =>
          match from_bytes_sig instruction.ed25519_signature with
          | none =>
              Except.error (ProgramError.fromDidCommitmentError DidCommitmentError.SignatureInvalid)
          | some signature =>
              if verify_strict verifying_key instruction.commitment.aggregate_commitment signature
              then Except.ok ()
              else Except.error
                (ProgramError.fromDidCommitmentError DidCommitmentError.SignatureInvalid)

/-- Rust `sign_commitment`, parameterised over the external dalek signing
routine: it signs exactly `commitment.aggregate_commitment`. -/
def sign_commitment {SK S : Type} (sign : SK → List Nat → S)
    (commitment : CommitmentTuple) (signing_key : SK) : S :=
  sign signing_key commitment.aggregate_commitment

/-- Modelled from the spec: the Merkle verifier's algorithm as §4.2 words it
(start from the leaf; per sibling, hash by the lowest bit of the index and
shift the index right one bit), as a recursive function to be compared with
the source-derived fold `compute_merkle_root`. -/
def computeRootSpec (leaf : Hash) (proof : List Hash) (index : Nat) : Hash :=
  match proof with
  | [] => leaf
  | sibling :: rest =>
      computeRootSpec
        (if index.testBit 0 = false then keccak256 (leaf ++ sibling)
         else keccak256 (sibling ++ leaf))
        rest (index >>> 1)

/-- An instrumented `compute_merkle_root`: the same per-sibling step, but
also counting how many keccak-256 digests are taken, to bound the work by
the proof length. -/
def compute_merkle_root_instrumented (leaf : Hash) (proof : List Hash)
    (index : Nat) : Hash × Nat :=
  match proof with
  | [] => (leaf, 0)
  | sibling :: rest =>
      let next := compute_merkle_root_instrumented
        (if index % 2 == 0 then keccak256 (leaf ++ sibling)
         else keccak256 (sibling ++ leaf))
        rest (index / 2)
      (next.1, next.2 + 1)

/-- Modelled from the spec (§8 Merkle round-trip, no builder exists under
src/): one bottom-up level step, pairing adjacent nodes and hashing them; an
unpaired trailing node is paired with itself. -/
def pairUp (level : List Hash) : List Hash :=
  match level with
  | [] => []
  | [a] => [keccak256 (a ++ a)]
  | a :: b :: rest => keccak256 (a ++ b) :: pairUp rest

/-- Modelled from the spec: the canonical sibling of position `i` in a level
(its pair partner; a self-paired trailing node is its own sibling). -/
def siblingAt (level : List Hash) (i : Nat) : Hash :=
  if i % 2 == 0 then level.getD (i + 1) (level.getD i [])
  else level.getD (i - 1) []

/-- Modelled from the spec: collapse levels until one root remains.  The
fuel argument (instantiated with the leaf count) keeps recursion structural;
each `pairUp` at least halves a level, so the fuel never runs out. -/
def buildRootGo : Nat → List Hash → Hash
  | 0, level => level.headD []
  | fuel + 1, level =>
      if level.length ≤ 1 then level.headD []
      else buildRootGo fuel (pairUp level)

/-- Modelled from the spec: the root of the bottom-up tree over a leaf list. -/
def buildRoot (leaves : List Hash) : Hash :=
  buildRootGo leaves.length leaves

/-- Modelled from the spec: the canonical sibling path for position `i`,
collected level by level from the leaves up. -/
def proofPathGo : Nat → List Hash → Nat → List Hash
  | 0, _, _ => []
  | fuel + 1, level, i =>
      if level.length ≤ 1 then []
      else siblingAt level i :: proofPathGo fuel (pairUp level) (i / 2)

/-- Modelled from the spec: the canonical sibling path of leaf `i`. -/
def proofPath (leaves : List Hash) (i : Nat) : List Hash :=
  proofPathGo leaves.length leaves i

/-- Two distinct byte strings with the same keccak-256 digest.  Theorems
never assume collision-freeness; where it matters they return the concrete
colliding pair as a disjunct. -/
abbrev KeccakCollision : Prop :=
  ∃ m₁ m₂ : List Nat, m₁ ≠ m₂ ∧ keccak256 m₁ = keccak256 m₂

/-- Modelled from the spec (§4.3, §8; ed25519-dalek's signer and strict
verifier are crate code outside this repository): an abstract strict
signature scheme — signing a message yields a signature the strict verifier
accepts for that exact message and rejects for every other message. -/
structure StrictSignatureScheme (K SK S : Type) where
  pkOf : SK → K
  sign : SK → List Nat → S
  verify : K → List Nat → S → Bool
  sign_verifies : ∀ sk m, verify (pkOf sk) m (sign sk m) = true
  message_binding : ∀ sk m m', m' ≠ m → verify (pkOf sk) m' (sign sk m) = false

/-- A toy strict scheme over byte lists, used to instantiate witnesses: the
signature of a message is the message itself and the verifier checks it. -/
def toyScheme : StrictSignatureScheme (List Nat) (List Nat) (List Nat) where
  pkOf := id
  sign := fun _ m => m
  verify := fun _ m s => s == m
  sign_verifies := by intro sk m; simp
  message_binding := by intro sk m m' h; simp; exact fun hh => h hh.symm

/-- Witness bytes: a did hash of 32 0x11 bytes. -/
def wDid : Hash := List.replicate 32 0x11

/-- Witness bytes: a credential root of 32 0x22 bytes. -/
def wCred : Hash := List.replicate 32 0x22

/-- Witness bytes: a zk commitment of 32 0x33 bytes. -/
def wZk : Hash := List.replicate 32 0x33

/-- Witness bytes: a credential root of 32 0x44 bytes, also used as the
credential leaf of a single-leaf (empty-proof) tree. -/
def wCred2 : Hash := List.replicate 32 0x44

/-- Witness bytes: a did hash of 32 0x66 bytes. -/
def wDid2 : Hash := List.replicate 32 0x66

/-- keccak-256 of `wDid ++ wCred ++ wZk` with its first byte's low bit
flipped: a recorded aggregate one bit away from the recomputed one. -/
def wAggBad : Hash :=
  [0x40, 0x52, 0x47, 0x91, 0xbd, 0xa5, 0x3e, 0x6d, 0xa2, 0x15, 0x8f, 0x10,
   0xc1, 0x5e, 0x36, 0x72, 0x83, 0x55, 0x15, 0xd6, 0x13, 0x51, 0x11, 0xd1,
   0x1c, 0x7e, 0x98, 0x80, 0xcf, 0xcb, 0xe5, 0x73]

/-- keccak-256 of `wDid ++ wCred2 ++ wZk` (precomputed, checked by kernel
evaluation in the witnesses below). -/
def wAgg2 : Hash :=
  [0x5d, 0xf2, 0xbc, 0x28, 0x12, 0x42, 0x43, 0x21, 0xcc, 0xf6, 0xa7, 0x62,
   0x25, 0xea, 0x51, 0x33, 0xaa, 0x4f, 0xf4, 0xa7, 0xc7, 0x87, 0x49, 0x51,
   0xb2, 0x04, 0x82, 0xe9, 0x44, 0x93, 0x39, 0x95]

/-- keccak-256 of `wDid2 ++ wCred2 ++ wZk` (precomputed, checked by kernel
evaluation in the witnesses below). -/
def wAgg3 : Hash :=
  [0x0e, 0x4a, 0xae, 0x3d, 0x61, 0x58, 0x9c, 0xce, 0x12, 0x24, 0x45, 0xa9,
   0xaf, 0x4f, 0x91, 0x16, 0x21, 0x48, 0xd9, 0x48, 0x91, 0x5e, 0x40, 0x8c,
   0xf8, 0x8f, 0x7f, 0x40, 0xeb, 0x65, 0xbd, 0x29]

/-- A request whose recorded aggregate has one bit flipped but is otherwise
arbitrary. -/
def wInstrBadAgg : VerifyInstruction where
  commitment :=
    { did_hash := wDid, credential_root := wCred, zk_commitment := wZk,
      aggregate_commitment := wAggBad }
  credential_leaf := wCred2
  index := 0
  merkle_proof := []
  ed25519_public_key := List.replicate 32 0
  ed25519_signature := List.replicate 64 0

/-- A request passing the aggregate check (recorded aggregate is the true
digest) whose single-leaf Merkle claim is wrong: the leaf differs from the
recorded credential root. -/
def wInstrBadMerkle : VerifyInstruction where
  commitment :=
    { did_hash := wDid, credential_root := wCred2, zk_commitment := wZk,
      aggregate_commitment := wAgg2 }
  credential_leaf := List.replicate 32 0x55
  index := 0
  merkle_proof := []
  ed25519_public_key := List.replicate 32 0
  ed25519_signature := List.replicate 64 0

/-- A request passing both hash checks: true aggregate, and a single-leaf
tree whose leaf is the recorded credential root. -/
def wInstrOk : VerifyInstruction where
  commitment :=
    { did_hash := wDid, credential_root := wCred2, zk_commitment := wZk,
      aggregate_commitment := wAgg2 }
  credential_leaf := wCred2
  index := 0
  merkle_proof := []
  ed25519_public_key := List.replicate 32 0
  ed25519_signature := List.replicate 64 0

/-- Like `wInstrOk` but a different did hash, hence a different (true)
aggregate commitment: the other 32-byte message of the C4 witness. -/
def wInstrOk2 : VerifyInstruction where
  commitment :=
    { did_hash := wDid2, credential_root := wCred2, zk_commitment := wZk,
      aggregate_commitment := wAgg3 }
  credential_leaf := wCred2
  index := 0
  merkle_proof := []
  ed25519_public_key := List.replicate 32 0
  ed25519_signature := List.replicate 64 0

/-- The aggregate recomputation is one keccak-256 digest of the three fields
concatenated in field order (the three incremental updates concatenate). -/
theorem recompute_aggregate_spec (t : CommitmentTuple) :
    t.recompute_aggregate =
      keccak256 (t.did_hash ++ t.credential_root ++ t.zk_commitment) := by
  simp [CommitmentTuple.recompute_aggregate, Keccak256.new, Keccak256.update,
    Keccak256.finalize, List.append_assoc]

/-- Folding an empty proof returns the leaf unchanged. -/
theorem compute_merkle_root_nil (leaf : Hash) (index : Nat) :
    compute_merkle_root leaf [] index = leaf := rfl

/-- One step of the source fold: hash by the parity of `index`, halve `index`. -/
theorem compute_merkle_root_cons (leaf sibling : Hash) (rest : List Hash)
    (index : Nat) :
    compute_merkle_root leaf (sibling :: rest) index =
      compute_merkle_root
        (if index % 2 == 0 then keccak256 (leaf ++ sibling)
         else keccak256 (sibling ++ leaf))
        rest (index / 2) := by
  rcases Nat.mod_two_eq_zero_or_one index with h | h <;>
    simp [compute_merkle_root, Keccak256.new, Keccak256.update,
      Keccak256.finalize, h]

/-- The pipeline when the recomputed aggregate disagrees with the recorded
one: it answers AggregateMismatch whatever the proof, key, signature, or
external verifier are. -/
theorem verify_commitment_agg_mismatch {K S : Type}
    (from_bytes_key : List Nat → Option K) (from_bytes_sig : List Nat → Option S)
    (verify_strict : K → List Nat → S → Bool) (instruction : VerifyInstruction)
    (h : instruction.commitment.recompute_aggregate ≠
      instruction.commitment.aggregate_commitment) :
    verify_commitment from_bytes_key from_bytes_sig verify_strict instruction =
      Except.error
        (ProgramError.fromDidCommitmentError DidCommitmentError.AggregateMismatch) := by
  simp only [verify_commitment]
  rw [if_pos h]

/-- The pipeline when the aggregate matches but the reconstructed root
disagrees with the recorded credential root. -/
theorem verify_commitment_merkle_mismatch {K S : Type}
    (from_bytes_key : List Nat → Option K) (from_bytes_sig : List Nat → Option S)
    (verify_strict : K → List Nat → S → Bool) (instruction : VerifyInstruction)
    (h₁ : instruction.commitment.recompute_aggregate =
      instruction.commitment.aggregate_commitment)
    (h₂ : compute_merkle_root instruction.credential_leaf instruction.merkle_proof
      instruction.index ≠ instruction.commitment.credential_root) :
    verify_commitment from_bytes_key from_bytes_sig verify_strict instruction =
      Except.error
        (ProgramError.fromDidCommitmentError DidCommitmentError.InvalidMerkleProof) := by
  simp only [verify_commitment]
  rw [if_neg (fun hc => hc h₁), if_pos h₂]

/-- Past both hash checks, the pipeline outcome is determined by the two
parser outcomes and the external verifier's verdict on the 32-byte aggregate
alone. -/
theorem verify_commitment_sig_stage {K S : Type}
    (from_bytes_key : List Nat → Option K) (from_bytes_sig : List Nat → Option S)
    (verify_strict : K → List Nat → S → Bool) (instruction : VerifyInstruction)
    (h₁ : instruction.commitment.recompute_aggregate =
      instruction.commitment.aggregate_commitment)
    (h₂ : compute_merkle_root instruction.credential_leaf instruction.merkle_proof
      instruction.index = instruction.commitment.credential_root) :
    verify_commitment from_bytes_key from_bytes_sig verify_strict instruction =
      (match from_bytes_key instruction.ed25519_public_key with
       | none =>
           Except.error
             (ProgramError.fromDidCommitmentError DidCommitmentError.SignatureInvalid)
       | some verifying_key =>
           match from_bytes_sig instruction.ed25519_signature with
           | none =>
               Except.error
                 (ProgramError.fromDidCommitmentError DidCommitmentError.SignatureInvalid)
           | some signature =>
               if verify_strict verifying_key
                 instruction.commitment.aggregate_commitment signature
               then Except.ok ()
               else Except.error
                 (ProgramError.fromDidCommitmentError DidCommitmentError.SignatureInvalid)) := by
  simp only [verify_commitment]
  rw [if_neg (fun hc => hc h₁), if_neg (fun hc => hc h₂)]

/-- C3: for every leaf, proof sequence, and index (all naturals, hence all
64-bit values), the source fold `compute_merkle_root` computes exactly the
spec's algorithm: per sibling, hash computed-then-sibling when the lowest
bit of the index is 0 and sibling-then-computed otherwise, then shift the
index right one bit; the final accumulator is the returned candidate root. -/
theorem c3_merkle_fold_follows_spec_algorithm (leaf : Hash) (proof : List Hash)
    (index : Nat) :
    compute_merkle_root leaf proof index = computeRootSpec leaf proof index := by
  induction proof generalizing leaf index with
  | nil => rfl
  | cons sibling rest ih =>
      rw [compute_merkle_root_cons]
      rcases Nat.mod_two_eq_zero_or_one index with h | h <;>
        simp [computeRootSpec, ih, h, Nat.testBit_zero, Nat.shiftRight_one]

/-- C6: for every leaf and every index, `compute_merkle_root` on an empty
proof returns the leaf unchanged, regardless of the index. -/
theorem c6_empty_proof_returns_leaf (leaf : Hash) (index : Nat) :
    compute_merkle_root leaf [] index = leaf := rfl

/-- C8: `compute_merkle_root` is total — it is a plain structural fold, so
it returns a Hash for every leaf, proof (however inconsistent with the
index), and index — and its work is bounded by the proof length: the
instrumented variant computes the same root while taking exactly one
keccak-256 digest per proof element. -/
theorem c8_total_and_work_bounded_by_proof_length (leaf : Hash)
    (proof : List Hash) (index : Nat) :
    (compute_merkle_root_instrumented leaf proof index).1 =
      compute_merkle_root leaf proof index ∧
    (compute_merkle_root_instrumented leaf proof index).2 = proof.length := by
  induction proof generalizing leaf index with
  | nil => exact ⟨rfl, rfl⟩
  | cons sibling rest ih =>
      rw [compute_merkle_root_cons]
      simp only [compute_merkle_root_instrumented, List.length_cons]
      exact ⟨(ih _ _).1, by rw [(ih _ _).2]⟩

/-- C10: the numeric codes reaching the host through
`ProgramError::Custom(value as u32)` are the declaration-order enum
discriminants — AggregateMismatch 0, InvalidMerkleProof 1,
SignatureInvalid 2, DeserializeFailed 3 — so DeserializeFailed, listed
first in the spec's taxonomy, carries the highest code. -/
theorem c10_error_codes_are_declaration_order_discriminants :
    ProgramError.fromDidCommitmentError DidCommitmentError.AggregateMismatch =
      ProgramError.Custom 0 ∧
    ProgramError.fromDidCommitmentError DidCommitmentError.InvalidMerkleProof =
      ProgramError.Custom 1 ∧
    ProgramError.fromDidCommitmentError DidCommitmentError.SignatureInvalid =
      ProgramError.Custom 2 ∧
    ProgramError.fromDidCommitmentError DidCommitmentError.DeserializeFailed =
      ProgramError.Custom 3 ∧
    DidCommitmentError.AggregateMismatch.discriminant <
      DidCommitmentError.DeserializeFailed.discriminant ∧
    DidCommitmentError.InvalidMerkleProof.discriminant <
      DidCommitmentError.DeserializeFailed.discriminant ∧
    DidCommitmentError.SignatureInvalid.discriminant <
      DidCommitmentError.DeserializeFailed.discriminant := by
  decide

set_option maxRecDepth 1000000

set_option maxHeartbeats 2000000

/-- C1: the pipeline checks aggregate, then Merkle, then signature, in a
fixed order with short-circuiting: whenever the recomputed aggregate
differs from the recorded one the result is AggregateMismatch, for every
Merkle content and every behaviour of the external parsers and verifier
(so the later checks are never consulted); whenever the aggregate matches
but the reconstructed root differs from the recorded credential root, the
result is InvalidMerkleProof for every behaviour of the signature stage. -/
theorem c1_fixed_order_short_circuit (K S : Type)
    (from_bytes_key : List Nat → Option K) (from_bytes_sig : List Nat → Option S)
    (verify_strict : K → List Nat → S → Bool) (instruction : VerifyInstruction) :
    (instruction.commitment.recompute_aggregate ≠
        instruction.commitment.aggregate_commitment →
      verify_commitment from_bytes_key from_bytes_sig verify_strict instruction =
        Except.error (ProgramError.fromDidCommitmentError
          DidCommitmentError.AggregateMismatch)) ∧
    (instruction.commitment.recompute_aggregate =
        instruction.commitment.aggregate_commitment →
      compute_merkle_root instruction.credential_leaf instruction.merkle_proof
          instruction.index ≠ instruction.commitment.credential_root →
      verify_commitment from_bytes_key from_bytes_sig verify_strict instruction =
        Except.error (ProgramError.fromDidCommitmentError
          DidCommitmentError.InvalidMerkleProof)) :=
  ⟨fun h => verify_commitment_agg_mismatch _ _ _ _ h,
   fun h₁ h₂ => verify_commitment_merkle_mismatch _ _ _ _ h₁ h₂⟩

/-- Witness for C1 at concrete requests: with the recorded aggregate one bit
off its true keccak-256 value the pipeline answers AggregateMismatch, and
with a correct aggregate but a wrong single-leaf Merkle claim it answers
InvalidMerkleProof, under an external stage that would otherwise accept. -/
theorem c1_fixed_order_short_circuit_witness :
    verify_commitment (fun _ => some ()) (fun _ => some ())
        (fun (_ : Unit) _ (_ : Unit) => true) wInstrBadAgg =
      Except.error (ProgramError.fromDidCommitmentError
        DidCommitmentError.AggregateMismatch) ∧
    verify_commitment (fun _ => some ()) (fun _ => some ())
        (fun (_ : Unit) _ (_ : Unit) => true) wInstrBadMerkle =
      Except.error (ProgramError.fromDidCommitmentError
        DidCommitmentError.InvalidMerkleProof) :=
  ⟨(c1_fixed_order_short_circuit Unit Unit _ _ _ wInstrBadAgg).1 (by decide),
   (c1_fixed_order_short_circuit Unit Unit _ _ _ wInstrBadMerkle).2
     (by decide) (by decide)⟩

/-- C2: the recomputed aggregate is the keccak-256 digest of
did_hash ‖ credential_root ‖ zk_commitment, hashed in that fixed order
through a single digest, and the pipeline succeeds only when the recorded
aggregate equals it — the invariant is checked, never assumed, whatever the
external signature stage does. -/
theorem c2_aggregate_invariant_checked :
    (∀ t : CommitmentTuple,
      t.recompute_aggregate =
        keccak256 (t.did_hash ++ t.credential_root ++ t.zk_commitment)) ∧
    (∀ (K S : Type) (from_bytes_key : List Nat → Option K)
       (from_bytes_sig : List Nat → Option S)
       (verify_strict : K → List Nat → S → Bool)
       (instruction : VerifyInstruction),
      verify_commitment from_bytes_key from_bytes_sig verify_strict instruction =
        Except.ok () →
      instruction.commitment.aggregate_commitment =
        instruction.commitment.recompute_aggregate) := by
  refine ⟨recompute_aggregate_spec, ?_⟩
  intro K S from_bytes_key from_bytes_sig verify_strict instruction h
  by_contra hne
  rw [verify_commitment_agg_mismatch from_bytes_key from_bytes_sig verify_strict
    instruction (fun he => hne he.symm)] at h
  exact absurd h (by simp)

/-- Witness for C2: a concrete fully consistent request passes end to end,
and the theorem yields its recorded-equals-recomputed equation. -/
theorem c2_aggregate_invariant_checked_witness :
    wInstrOk.commitment.aggregate_commitment =
      wInstrOk.commitment.recompute_aggregate :=
  c2_aggregate_invariant_checked.2 Unit Unit (fun _ => some ())
    (fun _ => some ()) (fun _ _ _ => true) wInstrOk (by rfl)

/-- C5: for every request passing the aggregate and Merkle checks, the
pipeline returns SignatureInvalid exactly when the public key fails to
parse, or the key parses but the signature bytes fail to parse, or both
parse and the strict verifier rejects — all three failure modes collapse
into the single SignatureInvalid kind. -/
theorem c5_signature_stage_single_error_kind (K S : Type)
    (from_bytes_key : List Nat → Option K) (from_bytes_sig : List Nat → Option S)
    (verify_strict : K → List Nat → S → Bool) (instruction : VerifyInstruction)
    (h₁ : instruction.commitment.recompute_aggregate =
      instruction.commitment.aggregate_commitment)
    (h₂ : compute_merkle_root instruction.credential_leaf
      instruction.merkle_proof instruction.index =
      instruction.commitment.credential_root) :
    (verify_commitment from_bytes_key from_bytes_sig verify_strict instruction =
        Except.error (ProgramError.fromDidCommitmentError
          DidCommitmentError.SignatureInvalid)) ↔
      (from_bytes_key instruction.ed25519_public_key = none ∨
       (∃ k, from_bytes_key instruction.ed25519_public_key = some k ∧
         from_bytes_sig instruction.ed25519_signature = none) ∨
       (∃ k s, from_bytes_key instruction.ed25519_public_key = some k ∧
         from_bytes_sig instruction.ed25519_signature = some s ∧
         verify_strict k instruction.commitment.aggregate_commitment s = false)) := by
  rw [verify_commitment_sig_stage from_bytes_key from_bytes_sig verify_strict
    instruction h₁ h₂]
  cases hk : from_bytes_key instruction.ed25519_public_key with
  | none => simp [hk]
  | some k =>
      cases hs : from_bytes_sig instruction.ed25519_signature with
      | none => simp [hk, hs]
      | some s =>
          cases hv : verify_strict k instruction.commitment.aggregate_commitment s <;>
            simp [hk, hs, hv]

/-- Witness for C5: a concrete request passing both hash checks, under an
external stage whose key parser rejects, lands in SignatureInvalid (the
first of the three conflated cases). -/
theorem c5_signature_stage_single_error_kind_witness :
    verify_commitment (fun _ => (none : Option Unit)) (fun _ => some ())
        (fun (_ : Unit) _ (_ : Unit) => true) wInstrOk =
      Except.error (ProgramError.fromDidCommitmentError
        DidCommitmentError.SignatureInvalid) :=
  (c5_signature_stage_single_error_kind Unit Unit (fun _ => none)
      (fun _ => some ()) (fun _ _ _ => true) wInstrOk (by decide) (by rfl)).mpr
    (Or.inl rfl)

/-- C4: the message handed to the external Ed25519 verifier is always
exactly the 32-byte aggregate commitment — the pipeline outcome depends on
the external verifier only through its verdict at that message, never on
its behaviour at the full tuple or request — and, for any strict scheme as
the spec describes it (signing binds the exact message), a request whose
signature bytes parse to a signature of its own aggregate under the
matching key verifies, while reusing that same signature on a request with
a different 32-byte aggregate fails with SignatureInvalid. -/
theorem c4_message_is_exactly_aggregate_and_strict :
    (∀ (K S : Type) (from_bytes_key : List Nat → Option K)
       (from_bytes_sig : List Nat → Option S)
       (vs₁ vs₂ : K → List Nat → S → Bool) (instruction : VerifyInstruction),
      (∀ k s, vs₁ k instruction.commitment.aggregate_commitment s =
              vs₂ k instruction.commitment.aggregate_commitment s) →
      verify_commitment from_bytes_key from_bytes_sig vs₁ instruction =
        verify_commitment from_bytes_key from_bytes_sig vs₂ instruction) ∧
    (∀ (K SK S : Type) (scheme : StrictSignatureScheme K SK S)
       (from_bytes_key : List Nat → Option K)
       (from_bytes_sig : List Nat → Option S)
       (instruction : VerifyInstruction) (sk : SK),
      instruction.commitment.recompute_aggregate =
        instruction.commitment.aggregate_commitment →
      compute_merkle_root instruction.credential_leaf instruction.merkle_proof
        instruction.index = instruction.commitment.credential_root →
      from_bytes_key instruction.ed25519_public_key = some (scheme.pkOf sk) →
      from_bytes_sig instruction.ed25519_signature =
        some (sign_commitment scheme.sign instruction.commitment sk) →
      verify_commitment from_bytes_key from_bytes_sig scheme.verify instruction =
        Except.ok ()) ∧
    (∀ (K SK S : Type) (scheme : StrictSignatureScheme K SK S)
       (from_bytes_key : List Nat → Option K)
       (from_bytes_sig : List Nat → Option S)
       (signed instruction : VerifyInstruction) (sk : SK),
      instruction.commitment.aggregate_commitment ≠
        signed.commitment.aggregate_commitment →
      instruction.commitment.recompute_aggregate =
        instruction.commitment.aggregate_commitment →
      compute_merkle_root instruction.credential_leaf instruction.merkle_proof
        instruction.index = instruction.commitment.credential_root →
      from_bytes_key instruction.ed25519_public_key = some (scheme.pkOf sk) →
      from_bytes_sig instruction.ed25519_signature =
        some (sign_commitment scheme.sign signed.commitment sk) →
      verify_commitment from_bytes_key from_bytes_sig scheme.verify instruction =
        Except.error (ProgramError.fromDidCommitmentError
          DidCommitmentError.SignatureInvalid)) := by
  refine ⟨?_, ?_, ?_⟩
  · intro K S from_bytes_key from_bytes_sig vs₁ vs₂ instruction hvv
    by_cases hagg : instruction.commitment.recompute_aggregate =
      instruction.commitment.aggregate_commitment
    · by_cases hm : compute_merkle_root instruction.credential_leaf
        instruction.merkle_proof instruction.index =
        instruction.commitment.credential_root
      · rw [verify_commitment_sig_stage from_bytes_key from_bytes_sig vs₁
            instruction hagg hm,
          verify_commitment_sig_stage from_bytes_key from_bytes_sig vs₂
            instruction hagg hm]
        cases hk : from_bytes_key instruction.ed25519_public_key with
        | none => rfl
        | some k =>
            cases hs : from_bytes_sig instruction.ed25519_signature with
            | none => rfl
            | some s => simp only [hvv k s]
      · rw [verify_commitment_merkle_mismatch from_bytes_key from_bytes_sig vs₁
            instruction hagg hm,
          verify_commitment_merkle_mismatch from_bytes_key from_bytes_sig vs₂
            instruction hagg hm]
    · rw [verify_commitment_agg_mismatch from_bytes_key from_bytes_sig vs₁
          instruction hagg,
        verify_commitment_agg_mismatch from_bytes_key from_bytes_sig vs₂
          instruction hagg]
  · intro K SK S scheme from_bytes_key from_bytes_sig instruction sk h₁ h₂ hk hs
    rw [verify_commitment_sig_stage from_bytes_key from_bytes_sig scheme.verify
      instruction h₁ h₂]
    simp only [hk, hs, sign_commitment]
    rw [scheme.sign_verifies sk instruction.commitment.aggregate_commitment]
    rfl
  · intro K SK S scheme from_bytes_key from_bytes_sig signed instruction sk
      hne h₁ h₂ hk hs
    rw [verify_commitment_sig_stage from_bytes_key from_bytes_sig scheme.verify
      instruction h₁ h₂]
    simp only [hk, hs, sign_commitment]
    rw [scheme.message_binding sk signed.commitment.aggregate_commitment
      instruction.commitment.aggregate_commitment hne]
    rfl

/-- Witness for C4 at concrete requests and the toy strict scheme: the
request carrying a signature of its own aggregate verifies; the request
with a different aggregate but the same reused signature fails with
SignatureInvalid; and the outcome is invariant under replacing the verifier
by one agreeing with it at the aggregate message. -/
theorem c4_message_is_exactly_aggregate_and_strict_witness :
    verify_commitment (fun _ => some (List.replicate 32 0))
        (fun _ => some wAgg2) toyScheme.verify wInstrOk = Except.ok () ∧
    verify_commitment (fun _ => some (List.replicate 32 0))
        (fun _ => some wAgg2) toyScheme.verify wInstrOk2 =
      Except.error (ProgramError.fromDidCommitmentError
        DidCommitmentError.SignatureInvalid) ∧
    verify_commitment (fun _ => some (List.replicate 32 0))
        (fun _ => some wAgg2) toyScheme.verify wInstrOk =
      verify_commitment (fun _ => some (List.replicate 32 0))
        (fun _ => some wAgg2) toyScheme.verify wInstrOk :=
  ⟨c4_message_is_exactly_aggregate_and_strict.2.1 (List Nat) (List Nat)
      (List Nat) toyScheme (fun _ => some (List.replicate 32 0))
      (fun _ => some wAgg2) wInstrOk (List.replicate 32 0)
      (by decide) (by rfl) (by rfl) (by rfl),
   c4_message_is_exactly_aggregate_and_strict.2.2 (List Nat) (List Nat)
      (List Nat) toyScheme (fun _ => some (List.replicate 32 0))
      (fun _ => some wAgg2) wInstrOk wInstrOk2 (List.replicate 32 0)
      (by decide) (by decide) (by rfl) (by rfl) (by rfl),
   c4_message_is_exactly_aggregate_and_strict.1 (List Nat) (List Nat)
      (fun _ => some (List.replicate 32 0)) (fun _ => some wAgg2)
      toyScheme.verify toyScheme.verify wInstrOk (fun _ _ => rfl)⟩

/-- C9: for a well-formed tuple, swapping did_hash with credential_root —
and likewise either of them with zk_commitment — in an otherwise identical
tuple changes the recomputed aggregate, unless the two (provably distinct)
hash preimages collide under keccak-256, in which case the concrete
colliding pair is exhibited. -/
theorem c9_swapping_fields_changes_aggregate (t : CommitmentTuple)
    (hd : isHash t.did_hash) (hc : isHash t.credential_root)
    (hz : isHash t.zk_commitment) :
    (t.did_hash ≠ t.credential_root →
      CommitmentTuple.recompute_aggregate
          { t with did_hash := t.credential_root,
                   credential_root := t.did_hash } ≠
        t.recompute_aggregate ∨ KeccakCollision) ∧
    (t.did_hash ≠ t.zk_commitment →
      CommitmentTuple.recompute_aggregate
          { t with did_hash := t.zk_commitment,
                   zk_commitment := t.did_hash } ≠
        t.recompute_aggregate ∨ KeccakCollision) ∧
    (t.credential_root ≠ t.zk_commitment →
      CommitmentTuple.recompute_aggregate
          { t with credential_root := t.zk_commitment,
                   zk_commitment := t.credential_root } ≠
        t.recompute_aggregate ∨ KeccakCollision) := by
  refine ⟨fun hne => ?_, fun hne => ?_, fun hne => ?_⟩
  · by_cases heq : CommitmentTuple.recompute_aggregate
        { t with did_hash := t.credential_root,
                 credential_root := t.did_hash } = t.recompute_aggregate
    · right
      refine ⟨t.credential_root ++ t.did_hash ++ t.zk_commitment,
              t.did_hash ++ t.credential_root ++ t.zk_commitment, ?_, ?_⟩
      · intro habs
        have h1 := (List.append_inj habs
          (by rw [List.length_append, List.length_append, hc, hd])).1
        exact hne (List.append_inj h1 (hc.trans hd.symm)).1.symm
      · have h := heq
        rw [recompute_aggregate_spec, recompute_aggregate_spec] at h
        simpa using h
    · exact Or.inl heq
  · by_cases heq : CommitmentTuple.recompute_aggregate
        { t with did_hash := t.zk_commitment,
                 zk_commitment := t.did_hash } = t.recompute_aggregate
    · right
      refine ⟨t.zk_commitment ++ t.credential_root ++ t.did_hash,
              t.did_hash ++ t.credential_root ++ t.zk_commitment, ?_, ?_⟩
      · intro habs
        have h1 := (List.append_inj habs
          (by rw [List.length_append, List.length_append, hz, hd])).1
        exact hne (List.append_inj h1 (hz.trans hd.symm)).1.symm
      · have h := heq
        rw [recompute_aggregate_spec, recompute_aggregate_spec] at h
        simpa using h
    · exact Or.inl heq
  · by_cases heq : CommitmentTuple.recompute_aggregate
        { t with credential_root := t.zk_commitment,
                 zk_commitment := t.credential_root } = t.recompute_aggregate
    · right
      refine ⟨t.did_hash ++ t.zk_commitment ++ t.credential_root,
              t.did_hash ++ t.credential_root ++ t.zk_commitment, ?_, ?_⟩
      · intro habs
        have h1 := (List.append_inj habs
          (by rw [List.length_append, List.length_append, hz, hc])).1
        exact hne (List.append_cancel_left h1).symm
      · have h := heq
        rw [recompute_aggregate_spec, recompute_aggregate_spec] at h
        simpa using h
    · exact Or.inl heq

/-- Witness for C9 at a concrete well-formed tuple with three pairwise
distinct 32-byte fields: each of the three swaps either changes the
aggregate or exhibits a keccak-256 collision. -/
theorem c9_swapping_fields_changes_aggregate_witness :
    (CommitmentTuple.recompute_aggregate
        { wInstrBadAgg.commitment with
            did_hash := wInstrBadAgg.commitment.credential_root,
            credential_root := wInstrBadAgg.commitment.did_hash } ≠
      wInstrBadAgg.commitment.recompute_aggregate ∨ KeccakCollision) ∧
    (CommitmentTuple.recompute_aggregate
        { wInstrBadAgg.commitment with
            did_hash := wInstrBadAgg.commitment.zk_commitment,
            zk_commitment := wInstrBadAgg.commitment.did_hash } ≠
      wInstrBadAgg.commitment.recompute_aggregate ∨ KeccakCollision) ∧
    (CommitmentTuple.recompute_aggregate
        { wInstrBadAgg.commitment with
            credential_root := wInstrBadAgg.commitment.zk_commitment,
            zk_commitment := wInstrBadAgg.commitment.credential_root } ≠
      wInstrBadAgg.commitment.recompute_aggregate ∨ KeccakCollision) :=
  ⟨(c9_swapping_fields_changes_aggregate wInstrBadAgg.commitment
      (by decide) (by decide) (by decide)).1 (by decide),
   (c9_swapping_fields_changes_aggregate wInstrBadAgg.commitment
      (by decide) (by decide) (by decide)).2.1 (by decide),
   (c9_swapping_fields_changes_aggregate wInstrBadAgg.commitment
      (by decide) (by decide) (by decide)).2.2 (by decide)⟩

/-- One pairing level has ceiling-half the nodes. -/
theorem pairUp_length : ∀ l : List Hash, (pairUp l).length = (l.length + 1) / 2
  | [] => rfl
  | [_] => by simp [pairUp]
  | _ :: _ :: rest => by
      simp [pairUp, pairUp_length rest]
      omega

/-- Pairing sends the node at position `i` to position `i / 2`, hashed with
its canonical sibling on the side given by the parity of `i`. -/
theorem pairUp_getD : ∀ (l : List Hash) (i : Nat), i < l.length →
    (pairUp l).getD (i / 2) [] =
      (if i % 2 == 0 then keccak256 (l.getD i [] ++ siblingAt l i)
       else keccak256 (siblingAt l i ++ l.getD i []))
  | [], i, h => absurd h (by simp)
  | [a], i, h => by
      have hi0 : i = 0 := by
        simp only [List.length_singleton] at h
        omega
      subst hi0
      simp [pairUp, siblingAt]
  | a :: b :: rest, 0, h => by simp [pairUp, siblingAt]
  | a :: b :: rest, 1, h => by simp [pairUp, siblingAt]
  | a :: b :: rest, i + 2, h => by
      have ih := pairUp_getD rest i (by
        simp only [List.length_cons] at h
        omega)
      have hdiv : (i + 2) / 2 = i / 2 + 1 := by omega
      have hmod : (i + 2) % 2 = i % 2 := by omega
      rcases Nat.mod_two_eq_zero_or_one i with hm | hm
      · simp only [pairUp, siblingAt, hdiv, hmod, hm, List.getD_cons_succ] at ih ⊢
        simpa using ih
      · obtain ⟨j, rfl⟩ : ∃ j, i = j + 1 := ⟨i - 1, by omega⟩
        simp only [pairUp, siblingAt, hdiv, hmod, hm, List.getD_cons_succ] at ih ⊢
        simpa using ih

/-- Walking the canonical sibling path from position `i` with the source
fold reconstructs the collapsed root, level by level. -/
theorem roundTripGo : ∀ (n : Nat) (level : List Hash) (i : Nat),
    level.length ≤ n + 1 → level ≠ [] → i < level.length →
    compute_merkle_root (level.getD i []) (proofPathGo n level i) i =
      buildRootGo n level
  | 0, level, i, hlen, hne, hi => by
      cases level with
      | nil => exact absurd rfl hne
      | cons a tail =>
          cases tail with
          | nil =>
              have hi0 : i = 0 := by
                simp only [List.length_singleton] at hi
                omega
              subst hi0
              simp [proofPathGo, buildRootGo, compute_merkle_root_nil]
          | cons b rest =>
              exact absurd hlen (by simp only [List.length_cons]; omega)
  | n + 1, level, i, hlen, hne, hi => by
      by_cases hs : level.length ≤ 1
      · cases level with
        | nil => exact absurd rfl hne
        | cons a tail =>
            cases tail with
            | nil =>
                have hi0 : i = 0 := by
                  simp only [List.length_singleton] at hi
                  omega
                subst hi0
                simp [proofPathGo, buildRootGo, compute_merkle_root_nil]
            | cons b rest =>
                exact absurd hs (by simp only [List.length_cons]; omega)
      · have hrec : proofPathGo (n + 1) level i =
            siblingAt level i :: proofPathGo n (pairUp level) (i / 2) := by
          simp [proofPathGo, hs]
        have hbuild : buildRootGo (n + 1) level = buildRootGo n (pairUp level) := by
          simp [buildRootGo, hs]
        rw [hrec, hbuild, compute_merkle_root_cons, ← pairUp_getD level i hi]
        exact roundTripGo n (pairUp level) (i / 2)
          (by rw [pairUp_length]; omega)
          (List.ne_nil_of_length_pos (by rw [pairUp_length]; omega))
          (by rw [pairUp_length]; omega)

/-- C7: Merkle round-trip — for every non-empty leaf list and every
in-range position `i`, building the tree bottom-up (pairing adjacent nodes
and hashing them with keccak-256) and extracting the canonical sibling path
for the leaf at `i` yields a path that `compute_merkle_root` folds back to
the tree's root. -/
theorem c7_merkle_round_trip (leaves : List Hash) (i : Nat)
    (h₁ : leaves ≠ []) (h₂ : i < leaves.length) :
    compute_merkle_root (leaves.getD i []) (proofPath leaves i) i =
      buildRoot leaves :=
  roundTripGo leaves.length leaves i (by omega) h₁ h₂

/-- Witness for C7 at concrete trees: a two-leaf tree at position 1 and a
three-leaf tree (exercising the self-paired trailing node) at position 2. -/
theorem c7_merkle_round_trip_witness :
    compute_merkle_root ([wDid, wCred].getD 1 []) (proofPath [wDid, wCred] 1) 1 =
      buildRoot [wDid, wCred] ∧
    compute_merkle_root ([wDid, wCred, wZk].getD 2 [])
        (proofPath [wDid, wCred, wZk] 2) 2 =
      buildRoot [wDid, wCred, wZk] :=
  ⟨c7_merkle_round_trip [wDid, wCred] 1 (by decide) (by decide),
   c7_merkle_round_trip [wDid, wCred, wZk] 2 (by decide) (by decide)⟩
